import Mathlib

/-!
Shallow embedding of the `wasm-encoder` crate's global-section encoder
(`src/crates/wasm-encoder/src/core/globals.rs`) and the module/component
container headers exercised by the tests in
`src/crates/wasm-encoder/src/lib.rs`.

Bytes are modelled as `Nat` (each in `[0, 256)` where produced by the
encoders), byte buffers as `List Nat`.  The `u32` entry counter uses `Nat`
with an explicit `% 2^32` at each increment, matching the released
artifact's wrapping arithmetic on `u32`.  The one explicit `unwrap` in
`GlobalSection::encode` (a panic when the section length does not fit in
`u32`) is modelled by returning `Option`.
-/

/-- The u32 modulus. -/
def U32MOD : Nat := 2 ^ 32

/-- Fuel-indexed body of the unsigned VarInt encoder; structural
recursion on the fuel keeps the function kernel-reducible.  When the fuel
runs out the value is already `0` (the fuel below is the value itself and
each step strictly shrinks the value), so the fallback emits the byte of
`0`. -/
def ulebFuel : Nat → Nat → List Nat
  | 0, n => [n % 128]
  | fuel + 1, n => if n < 128 then [n] else (n % 128 + 128) :: ulebFuel fuel (n / 128)

/-- Modelled from the spec (section 4.1): the unsigned variable-length
integer encoder `encoders::u32`, whose source is not in the repository
snapshot.  Each byte carries 7 value bits plus a continuation flag in the
high bit; encoding stops once no significant bits remain, yielding the
unique minimal-length encoding. -/
def uleb (n : Nat) : List Nat :=
  ulebFuel n n

/-- Modelled from the spec (sections 3 and 8): the matching unsigned
VarInt decoder used to state round-trip properties; the repository
snapshot contains no decoder, the spec describes one by its effect
(`decode(encode(x)) == x`). -/
def ulebDecode : List Nat → Option (Nat × List Nat)
  | [] => none
  | b :: rest =>
    if b < 128 then some (b, rest)
    else (ulebDecode rest).map (fun p => (b - 128 + 128 * p.1, p.2))

/-- Fuel-indexed body of the signed VarInt encoder; structural recursion
on the fuel keeps the function kernel-reducible.  The fuel below is
`n.natAbs`, which bounds the iteration count (each step strictly shrinks
the magnitude), so when the fuel runs out the value is already `0` and
the fallback emits its byte. -/
def slebFuel : Nat → Int → List Nat
  | 0, n => [(n % 128).toNat]
  | fuel + 1, n =>
    if (n / 128 = 0 ∧ (n % 128).toNat < 64) ∨ (n / 128 = -1 ∧ 64 ≤ (n % 128).toNat) then
      [(n % 128).toNat]
    else
      ((n % 128).toNat + 128) :: slebFuel fuel (n / 128)

/-- Modelled from the spec (section 4.1): the signed variable-length
integer encoder for instruction immediates; stops once the remaining
bits are redundant sign-extension. -/
def sleb (n : Int) : List Nat :=
  slebFuel n.natAbs n

/-- Modelled from the spec (sections 3 and 4.2): the closed enumeration of
value types, each mapped to its fixed one-byte tag from the external
binary format; the `ValType` source file is not in the repository
snapshot. -/
inductive ValType where
  | i32
  | i64
  | f32
  | f64
  | v128
  | funcref
  | externref
deriving DecidableEq, Repr

/-- The fixed one-byte tag of a value type (the `Into<u8>` conversion). -/
def ValType.byte : ValType → Nat
  | .i32 => 0x7F
  | .i64 => 0x7E
  | .f32 => 0x7D
  | .f64 => 0x7C
  | .v128 => 0x7B
  | .funcref => 0x70
  | .externref => 0x6F

/-- Modelled from the spec (sections 3 and 4.3): the instruction set as a
closed tagged variant, restricted to the variants needed for global
initializer expressions here; the `Instruction` source file is not in the
repository snapshot.  Each variant encodes as its fixed opcode byte
followed by its immediates. -/
inductive Instruction where
  | End
  | I32Const (n : Int)
  | I64Const (n : Int)
  | GlobalGet (idx : Nat)
  | RefFunc (idx : Nat)
deriving DecidableEq, Repr

/-- Encoding of an instruction: opcode byte then immediates (spec 4.3). -/
def Instruction.encode : Instruction → List Nat
  | .End => [0x0B]
  | .I32Const n => 0x41 :: sleb n
  | .I64Const n => 0x42 :: sleb n
  | .GlobalGet idx => 0x23 :: uleb idx
  | .RefFunc idx => 0xD2 :: uleb idx

/-- Modelled from the spec (section 3): the fixed one-byte section kind
tag for the global section (`SectionId::Global`), whose source file is
not in the repository snapshot; the WebAssembly global section id is 6. -/
def SectionId.globalId : Nat := 6

/-- `GlobalType` from `globals.rs`: a value type plus mutability. -/
structure GlobalType where
  val_type : ValType
  mutable : Bool
deriving DecidableEq, Repr

/-- `GlobalType::encode` from `globals.rs`: push the value-type tag byte,
then the mutability flag byte (`mutable as u8`). -/
def GlobalType.encode (g : GlobalType) : List Nat :=
  [g.val_type.byte, if g.mutable then 1 else 0]

/-- `GlobalSection` from `globals.rs`: an internal payload byte buffer
plus the `u32` count of entries added. -/
structure GlobalSection where
  bytes : List Nat
  num_added : Nat
deriving DecidableEq, Repr

/-- `GlobalSection::new` (= `Default::default()`): empty buffer, zero
count. -/
def GlobalSection.new : GlobalSection :=
  { bytes := [], num_added := 0 }

/-- `GlobalSection::len`: the number of globals in the section. -/
def GlobalSection.len (s : GlobalSection) : Nat :=
  s.num_added

/-- `GlobalSection::is_empty`. -/
def GlobalSection.is_empty (s : GlobalSection) : Bool :=
  s.num_added == 0

/-- `GlobalSection::global` from `globals.rs`: append the global type's
encoding, the initializer instruction's encoding, then `Instruction::End`,
and increment the count (wrapping `u32`). -/
def GlobalSection.global (s : GlobalSection) (global_type : GlobalType)
    (init_expr : Instruction) : GlobalSection :=
  { bytes := s.bytes ++ global_type.encode ++ init_expr.encode ++ Instruction.End.encode
    num_added := (s.num_added + 1) % U32MOD }

/-- `GlobalSection::raw` from `globals.rs`: extend the payload with the
raw bytes and increment the count (wrapping `u32`). -/
def GlobalSection.raw (s : GlobalSection) (data : List Nat) : GlobalSection :=
  { bytes := s.bytes ++ data
    num_added := (s.num_added + 1) % U32MOD }

/-- Modelled from the spec (section 4.4), for comparison with the code:
the raw-append escape hatch as the spec words it, appending the bytes and
incrementing the entry count "by a caller-specified amount". -/
def GlobalSection.rawSpec (s : GlobalSection) (data : List Nat) (amount : Nat) :
    GlobalSection :=
  { bytes := s.bytes ++ data
    num_added := (s.num_added + amount) % U32MOD }

/-- `u32::try_from` on a `usize`-sized value: `some` exactly when the
value fits in `u32`; the source calls `.unwrap()` on the result, so
`none` models the panic. -/
def u32TryFrom (m : Nat) : Option Nat :=
  if m < U32MOD then some m else none

/-- `<GlobalSection as Section>::encode` from `globals.rs`: extend the
sink with the VarInt-encoded section length
(`u32::try_from(n + bytes.len()).unwrap()` where `n` is the byte length
of the VarInt-encoded entry count), then the VarInt-encoded entry count,
then the payload.  `none` models the `.unwrap()` panic, in which case
nothing is written to the sink. -/
def GlobalSection.encode (s : GlobalSection) (sink : List Nat) : Option (List Nat) :=
  let num_added := uleb s.num_added
  let n := num_added.length
  (u32TryFrom (n + s.bytes.length)).map
    (fun len => sink ++ uleb len ++ num_added ++ s.bytes)

/-- `<GlobalSection as Section>::id` from `globals.rs`. -/
def GlobalSection.id (_ : GlobalSection) : Nat :=
  SectionId.globalId

/-- The `&self` borrow of `encode` rendered as explicit state passing:
the call returns the (unmodified) receiver together with the extended
sink. -/
def GlobalSection.encodeCall (s : GlobalSection) (sink : List Nat) :
    Option (GlobalSection × List Nat) :=
  (s.encode sink).map (fun out => (s, out))

/-- A builder call on a `GlobalSection`: either `global` or `raw`. -/
inductive Op where
  | global (gt : GlobalType) (init : Instruction)
  | raw (data : List Nat)
deriving DecidableEq, Repr

/-- Apply one builder call. -/
def GlobalSection.applyOp (s : GlobalSection) : Op → GlobalSection
  | .global gt init => s.global gt init
  | .raw data => s.raw data

/-- Apply a sequence of builder calls in order. -/
def GlobalSection.applyOps (s : GlobalSection) (ops : List Op) : GlobalSection :=
  ops.foldl GlobalSection.applyOp s

/-- Apply a sequence of `global` calls (the raw escape hatch unused). -/
def GlobalSection.applyGlobals (s : GlobalSection)
    (gs : List (GlobalType × Instruction)) : GlobalSection :=
  gs.foldl (fun a p => a.global p.1 p.2) s

/-- Decode the outer frame of a section byte stream: a one-byte id, a
VarInt-encoded payload length, then the remaining bytes.  Modelled from
the spec (section 6): each section is `[1-byte id][VarInt length][payload]`. -/
def decodeFrame (bs : List Nat) : Option (Nat × Nat × List Nat) :=
  match bs with
  | [] => none
  | id :: rest => (ulebDecode rest).map (fun p => (id, p.1, p.2))

/-- The 4-byte magic number of the binary format. -/
def MAGIC : List Nat := [0x00, 0x61, 0x73, 0x6D]

/-- The 4-byte version field of a flat module (version 1). -/
def MODVERSION : List Nat := [0x01, 0x00, 0x00, 0x00]

/-- The 4-byte version/layout tag of a nested component, per the
expected bytes in the crate's `it_encodes_an_empty_component` test. -/
def COMPVERSION : List Nat := [0x0A, 0x00, 0x01, 0x00]

/-- Modelled from the spec (sections 3 and 4.5): a `Module` container
holds its already-encoded section blocks in order; `Module`'s source file
is not in the repository snapshot.  Created empty by `new`. -/
structure WasmModule where
  sections : List (List Nat)

/-- `Module::new`: a fresh module with no sections. -/
def WasmModule.new : WasmModule :=
  { sections := [] }

/-- Modelled from the spec (section 4.5): `Module::finish` concatenates
the magic number, the flat-module version field, and every added section
block in order. -/
def WasmModule.finish (m : WasmModule) : List Nat :=
  MAGIC ++ MODVERSION ++ m.sections.flatten

/-- Modelled from the spec (section 4.4), for comparison with the code:
`encode` as the spec words it, writing the id byte first, then the VarInt
section length, then the VarInt entry count, then the payload. -/
def GlobalSection.encodeClaimed (s : GlobalSection) (sink : List Nat) : Option (List Nat) :=
  let num_added := uleb s.num_added
  let n := num_added.length
  (u32TryFrom (n + s.bytes.length)).map
    (fun len => sink ++ [s.id] ++ uleb len ++ num_added ++ s.bytes)

/-- Modelled from the spec (sections 3 and 4.5): a `Component` container;
its source file is not in the repository snapshot. -/
structure Component where
  sections : List (List Nat)

/-- `Component::new`: a fresh component with no sections. -/
def Component.new : Component :=
  { sections := [] }

/-- Modelled from the spec (section 4.5): `Component::finish` concatenates
the magic number, the component version tag, and every added section
block in order. -/
def Component.finish (c : Component) : List Nat :=
  MAGIC ++ COMPVERSION ++ c.sections.flatten

/-! ## Helper lemmas -/

/-- Round trip of the unsigned VarInt coder through the fuel, for any
sufficient fuel. -/
theorem ulebDecode_ulebFuel (fuel : Nat) :
    ∀ n, n ≤ fuel → ∀ t, ulebDecode (ulebFuel fuel n ++ t) = some (n, t) := by
  induction fuel with
  | zero =>
    intro n hn t
    have : n = 0 := by omega
    subst this
    simp [ulebFuel, ulebDecode]
  | succ fuel ih =>
    intro n hn t
    by_cases h : n < 128
    · simp [ulebFuel, h, ulebDecode]
    · have hdiv : n / 128 ≤ fuel := by
        have : n / 128 < n := Nat.div_lt_self (by omega) (by omega)
        omega
      have hb : ¬ (n % 128 + 128 < 128) := by omega
      simp only [ulebFuel, if_neg h, List.cons_append, ulebDecode, if_neg hb,
        ih (n / 128) hdiv t, Option.map_some', Option.some.injEq, Prod.mk.injEq, and_true]
      omega

/-- Round trip of the unsigned VarInt coder: decoding an encoding followed
by any trailing bytes recovers the value and the trailing bytes. -/
theorem ulebDecode_uleb_append (n : Nat) (t : List Nat) :
    ulebDecode (uleb n ++ t) = some (n, t) :=
  ulebDecode_ulebFuel n n (Nat.le_refl n) t

/-- `len` reads the entry counter. -/
theorem GlobalSection.len_eq (s : GlobalSection) : s.len = s.num_added :=
  rfl

/-- One builder call increments the entry counter by one, wrapping. -/
theorem applyOp_num_added (s : GlobalSection) (op : Op) :
    (s.applyOp op).num_added = (s.num_added + 1) % U32MOD := by
  cases op <;> rfl

/-- The entry counter after a sequence of builder calls: the start value
plus the number of calls, wrapping at `2^32`. -/
theorem applyOps_num_added (ops : List Op) (s : GlobalSection)
    (h : s.num_added < U32MOD) :
    (s.applyOps ops).num_added = (s.num_added + ops.length) % U32MOD := by
  induction ops generalizing s with
  | nil => simp [GlobalSection.applyOps, Nat.mod_eq_of_lt h]
  | cons op rest ih =>
    have hlt : (s.applyOp op).num_added < U32MOD := by
      rw [applyOp_num_added]
      exact Nat.mod_lt _ (by norm_num [U32MOD])
    show (GlobalSection.applyOps (s.applyOp op) rest).num_added = _
    rw [ih _ hlt, applyOp_num_added, Nat.mod_add_mod]
    congr 1
    simp
    omega

/-- Building by `global` calls only is building by the corresponding
`Op.global` call sequence. -/
theorem applyGlobals_eq_applyOps (s : GlobalSection)
    (gs : List (GlobalType × Instruction)) :
    s.applyGlobals gs = s.applyOps (gs.map (fun p => Op.global p.1 p.2)) := by
  unfold GlobalSection.applyGlobals GlobalSection.applyOps
  rw [List.foldl_map]
  rfl

/-! ## Claim theorems -/

/-- C1 (counterexample): as stated the claim is false — `encode` does not
write the section's one-byte id.  On the empty section, `encode` emits
`[1, 0]` (length, count) while the claim's wording (id first, then
length, count, payload) would emit `[6, 1, 0]`. -/
theorem spec_C1_cex :
    GlobalSection.new.encode [] = some [1, 0] ∧
    GlobalSection.new.encodeClaimed [] = some [6, 1, 0] ∧
    GlobalSection.new.encode [] ≠ GlobalSection.new.encodeClaimed [] := by
  decide

/-- C1 (amended): `GlobalSection.encode` writes to the destination sink,
in this order: the VarInt-encoded length equal to (byte length of the
VarInt-encoded entry count) + (payload byte length), then the
VarInt-encoded entry count, then the payload bytes.  The one-byte section
id is not written by `encode`; it is exposed separately through `id`. -/
theorem spec_C1_amended (s : GlobalSection) (sink : List Nat)
    (h : (uleb s.num_added).length + s.bytes.length < U32MOD) :
    s.encode sink =
      some (sink ++ uleb ((uleb s.num_added).length + s.bytes.length) ++
        uleb s.num_added ++ s.bytes) := by
  unfold GlobalSection.encode u32TryFrom
  simp [h]

/-- C1 witness: the amended theorem applied to a one-global section. -/
theorem spec_C1_amended_witness :
    (GlobalSection.new.global ⟨ValType.i32, false⟩ (Instruction.I32Const 42)).encode [0xAA] =
      some ([0xAA] ++
        uleb ((uleb (GlobalSection.new.global ⟨ValType.i32, false⟩
            (Instruction.I32Const 42)).num_added).length +
          (GlobalSection.new.global ⟨ValType.i32, false⟩
            (Instruction.I32Const 42)).bytes.length) ++
        uleb (GlobalSection.new.global ⟨ValType.i32, false⟩
          (Instruction.I32Const 42)).num_added ++
        (GlobalSection.new.global ⟨ValType.i32, false⟩
          (Instruction.I32Const 42)).bytes) :=
  spec_C1_amended
    (GlobalSection.new.global ⟨ValType.i32, false⟩ (Instruction.I32Const 42))
    [0xAA] (by decide)

/-- C2: `encode` succeeds exactly when the computed section length (byte
length of the VarInt entry-count prefix plus the payload byte length)
fits in `u32`; otherwise the `u32::try_from(...).unwrap()` panics (the
`none` branch) and nothing is emitted, in particular no truncated
length. -/
theorem spec_C2 (s : GlobalSection) (sink : List Nat) :
    (s.encode sink = none ↔
      U32MOD ≤ (uleb s.num_added).length + s.bytes.length) ∧
    ((uleb s.num_added).length + s.bytes.length < U32MOD →
      ∃ out, s.encode sink = some out) := by
  unfold GlobalSection.encode u32TryFrom
  constructor
  · by_cases h : (uleb s.num_added).length + s.bytes.length < U32MOD
    · simp only [if_pos h, Option.map_some']
      constructor
      · intro hcontra
        exact absurd hcontra (by simp)
      · omega
    · simp only [if_neg h, Option.map_none']
      constructor
      · intro _
        omega
      · intro _
        trivial
  · intro h
    simp [h]

/-- C2 witness: the empty section is in range and encodes; the dichotomy
holds on it. -/
theorem spec_C2_witness :
    (GlobalSection.new.encode [] = none ↔
      U32MOD ≤ (uleb GlobalSection.new.num_added).length +
        GlobalSection.new.bytes.length) ∧
    ((uleb GlobalSection.new.num_added).length +
        GlobalSection.new.bytes.length < U32MOD →
      ∃ out, GlobalSection.new.encode [] = some out) :=
  spec_C2 GlobalSection.new []

/-- C3 (counterexample): `raw` increments the entry count by exactly one,
never by a caller-specified amount — there is no amount parameter.  A
caller splicing the pre-encoded bytes of two globals and declaring amount
2 (the spec-worded variant) disagrees with the code on the resulting
count. -/
theorem spec_C3_cex :
    (GlobalSection.raw GlobalSection.new
        [0x7F, 0x00, 0x0B, 0x7E, 0x00, 0x0B]).num_added = 1 ∧
    (GlobalSection.rawSpec GlobalSection.new
        [0x7F, 0x00, 0x0B, 0x7E, 0x00, 0x0B] 2).num_added = 2 ∧
    (GlobalSection.raw GlobalSection.new
        [0x7F, 0x00, 0x0B, 0x7E, 0x00, 0x0B]).num_added ≠
      (GlobalSection.rawSpec GlobalSection.new
        [0x7F, 0x00, 0x0B, 0x7E, 0x00, 0x0B] 2).num_added := by
  decide

/-- C3 (amended): the raw-append escape hatch appends the caller-supplied
pre-encoded bytes directly to the payload buffer and increments the entry
count by exactly one per call. -/
theorem spec_C3_amended (s : GlobalSection) (data : List Nat) :
    (s.raw data).bytes = s.bytes ++ data ∧
    (s.raw data).num_added = (s.num_added + 1) % U32MOD :=
  ⟨rfl, rfl⟩

/-- C4 (counterexample): as stated over every natural number `n` the
claim is false — the entry counter is a `u32`, so after `2^32` append
calls `len()` reports `0`, not `2^32`. -/
theorem spec_C4_cex :
    (GlobalSection.applyOps GlobalSection.new
        (List.replicate U32MOD (Op.raw []))).len ≠
      (List.replicate U32MOD (Op.raw [])).length := by
  have h := applyOps_num_added (List.replicate U32MOD (Op.raw []))
    GlobalSection.new (by decide)
  have hz : GlobalSection.new.num_added = 0 := rfl
  rw [hz, Nat.zero_add, List.length_replicate, Nat.mod_self] at h
  rw [List.length_replicate, GlobalSection.len_eq, h]
  decide

/-- C4 (amended): for every `n < 2^32` and every sequence of `n` append
calls (`global` or `raw`) applied to a fresh `GlobalSection`, `len()`
returns `n` and `is_empty()` returns `true` exactly when `n = 0`. -/
theorem spec_C4_amended (n : Nat) (ops : List Op) (hlen : ops.length = n)
    (hn : n < U32MOD) :
    (GlobalSection.applyOps GlobalSection.new ops).len = n ∧
    ((GlobalSection.applyOps GlobalSection.new ops).is_empty = true ↔ n = 0) := by
  have h := applyOps_num_added ops GlobalSection.new (by decide)
  have hz : GlobalSection.new.num_added = 0 := rfl
  rw [hz, Nat.zero_add, hlen, Nat.mod_eq_of_lt hn] at h
  refine ⟨by rw [GlobalSection.len_eq, h], ?_⟩
  simp [GlobalSection.is_empty, h]

/-- C4 witness: two append calls, one of each kind. -/
theorem spec_C4_amended_witness :
    (GlobalSection.applyOps GlobalSection.new
        [Op.global ⟨ValType.i64, true⟩ (Instruction.GlobalGet 0), Op.raw [0x7F]]).len = 2 ∧
    ((GlobalSection.applyOps GlobalSection.new
        [Op.global ⟨ValType.i64, true⟩ (Instruction.GlobalGet 0), Op.raw [0x7F]]).is_empty
      = true ↔ 2 = 0) :=
  spec_C4_amended 2
    [Op.global ⟨ValType.i64, true⟩ (Instruction.GlobalGet 0), Op.raw [0x7F]]
    (by decide) (by decide)

/-- C5 (counterexample): as stated the claim is false — the bytes
produced by `encode` alone do not begin with the section id (encode never
writes it), so decoding them as an outer frame does not yield the
section's id.  The empty section (zero `global()` calls) encodes to
`[1, 0]`, whose frame decode reports id `1`, not the global section
id. -/
theorem spec_C5_cex :
    GlobalSection.new.encode [] = some [1, 0] ∧
    decodeFrame [1, 0] = some (1, 0, []) ∧
    GlobalSection.new.id ≠ 1 := by
  decide

/-- C5 (amended): for every `GlobalSection` built only via `global()`
calls (fewer than `2^32` of them, with the section length in `u32`
range), prepending the section's `id` byte to the bytes produced by
`encode` and decoding the outer frame yields the exact section id, a
payload length exactly matching the payload emitted, and a payload whose
leading VarInt equals the number of `global()` calls made. -/
theorem spec_C5_amended (gs : List (GlobalType × Instruction))
    (hn : gs.length < U32MOD)
    (hL : (uleb gs.length).length +
      (GlobalSection.applyGlobals GlobalSection.new gs).bytes.length < U32MOD) :
    ∃ bs payload,
      (GlobalSection.applyGlobals GlobalSection.new gs).encode [] = some bs ∧
      decodeFrame ((GlobalSection.applyGlobals GlobalSection.new gs).id :: bs) =
        some ((GlobalSection.applyGlobals GlobalSection.new gs).id,
          payload.length, payload) ∧
      (ulebDecode payload).map Prod.fst = some gs.length := by
  set s := GlobalSection.applyGlobals GlobalSection.new gs with hs
  have hnum : s.num_added = gs.length := by
    rw [hs, applyGlobals_eq_applyOps]
    have h := applyOps_num_added (gs.map fun p => Op.global p.1 p.2)
      GlobalSection.new (by decide)
    rw [h]
    have hz : GlobalSection.new.num_added = 0 := rfl
    rw [hz, Nat.zero_add, List.length_map, Nat.mod_eq_of_lt hn]
  refine ⟨uleb ((uleb gs.length).length + s.bytes.length) ++
      (uleb gs.length ++ s.bytes),
    uleb gs.length ++ s.bytes, ?_, ?_, ?_⟩
  · unfold GlobalSection.encode u32TryFrom
    rw [hnum]
    simp [hL, List.append_assoc]
  · simp only [decodeFrame]
    rw [ulebDecode_uleb_append]
    simp [List.length_append]
  · rw [ulebDecode_uleb_append]
    simp

/-- C5 witness: a single global with a constant initializer. -/
theorem spec_C5_amended_witness :
    ∃ bs payload,
      (GlobalSection.applyGlobals GlobalSection.new
        [(⟨ValType.i32, false⟩, Instruction.I32Const 42)]).encode [] = some bs ∧
      decodeFrame ((GlobalSection.applyGlobals GlobalSection.new
          [(⟨ValType.i32, false⟩, Instruction.I32Const 42)]).id :: bs) =
        some ((GlobalSection.applyGlobals GlobalSection.new
            [(⟨ValType.i32, false⟩, Instruction.I32Const 42)]).id,
          payload.length, payload) ∧
      (ulebDecode payload).map Prod.fst =
        some ([(⟨ValType.i32, false⟩, Instruction.I32Const 42)] :
          List (GlobalType × Instruction)).length :=
  spec_C5_amended [(⟨ValType.i32, false⟩, Instruction.I32Const 42)]
    (by decide) (by decide)

/-- C6: the encoding of a `GlobalType` is exactly two bytes: the
value-type tag byte, then `0x01` when `mutable` is `true` and `0x00` when
it is `false`. -/
theorem spec_C6 (g : GlobalType) :
    g.encode = [g.val_type.byte, if g.mutable then 1 else 0] ∧
    g.encode.length = 2 :=
  ⟨rfl, rfl⟩

/-- C7: a fresh empty `WasmModule` encodes to exactly the 8 bytes magic ++
version 1, and a fresh empty `Component` encodes to exactly 8 bytes: the
same 4-byte magic followed by the distinct 4-byte component version
tag. -/
theorem spec_C7 :
    WasmModule.new.finish = [0x00, 0x61, 0x73, 0x6D, 0x01, 0x00, 0x00, 0x00] ∧
    Component.new.finish = [0x00, 0x61, 0x73, 0x6D, 0x0A, 0x00, 0x01, 0x00] ∧
    WasmModule.new.finish.length = 8 ∧
    Component.new.finish.length = 8 ∧
    WasmModule.new.finish.take 4 = MAGIC ∧
    Component.new.finish.take 4 = MAGIC ∧
    WasmModule.new.finish.drop 4 ≠ Component.new.finish.drop 4 := by
  decide

/-- C8: encoding is deterministic — applying the same sequence of builder
calls to two freshly created `GlobalSection` builders and encoding each
produces byte-for-byte identical output. -/
theorem spec_C8 (ops : List Op) (s1 s2 : GlobalSection)
    (h1 : s1 = GlobalSection.new) (h2 : s2 = GlobalSection.new) :
    (s1.applyOps ops).encode [] = (s2.applyOps ops).encode [] := by
  rw [h1, h2]

/-- C8 witness: a two-call sequence run on two fresh builders. -/
theorem spec_C8_witness :
    (GlobalSection.applyOps GlobalSection.new
        [Op.global ⟨ValType.f64, true⟩ (Instruction.I64Const (-5)),
          Op.raw [1, 2]]).encode [] =
      (GlobalSection.applyOps GlobalSection.new
        [Op.global ⟨ValType.f64, true⟩ (Instruction.I64Const (-5)),
          Op.raw [1, 2]]).encode [] :=
  spec_C8 [Op.global ⟨ValType.f64, true⟩ (Instruction.I64Const (-5)), Op.raw [1, 2]]
    GlobalSection.new GlobalSection.new rfl rfl

/-- C9: `GlobalSection.global` appends to the payload exactly the
`GlobalType`'s two-byte encoding, then the initializer instruction's
encoding, then the one-byte `End` opcode (`0x0B`); the terminating `End`
is appended by the builder itself, the caller supplies only the type and
the initializer. -/
theorem spec_C9 (s : GlobalSection) (gt : GlobalType) (init : Instruction) :
    (s.global gt init).bytes = s.bytes ++ gt.encode ++ init.encode ++ [0x0B] ∧
    Instruction.End.encode = [0x0B] :=
  ⟨rfl, rfl⟩

/-- C10: a (successful) `encode` call leaves the builder's entire state
unchanged and appends to its sink a block of bytes depending only on the
builder, so encode may be called any number of times and every call
appends the same bytes. -/
theorem spec_C10 (s : GlobalSection) (sink : List Nat) (s2 : GlobalSection)
    (out : List Nat) (h : s.encodeCall sink = some (s2, out)) :
    s2 = s ∧ ∃ block, out = sink ++ block ∧
      ∀ sink2, s2.encodeCall sink2 = some (s2, sink2 ++ block) := by
  have hc : (uleb s.num_added).length + s.bytes.length < U32MOD := by
    by_contra hnc
    have hnone : s.encodeCall sink = none := by
      unfold GlobalSection.encodeCall GlobalSection.encode u32TryFrom
      simp [hnc]
    rw [hnone] at h
    exact absurd h (by simp)
  have key : ∀ sink2 : List Nat, s.encodeCall sink2 =
      some (s, sink2 ++ (uleb ((uleb s.num_added).length + s.bytes.length) ++
        (uleb s.num_added ++ s.bytes))) := by
    intro sink2
    unfold GlobalSection.encodeCall GlobalSection.encode u32TryFrom
    simp [hc, List.append_assoc]
  have h2 := key sink
  rw [h2] at h
  simp only [Option.some.injEq, Prod.mk.injEq] at h
  obtain ⟨hs2, hout⟩ := h
  subst hs2
  exact ⟨rfl, _, hout.symm, key⟩

/-- C10 witness: the empty section, encoded into an empty sink. -/
theorem spec_C10_witness :
    GlobalSection.new = GlobalSection.new ∧
    ∃ block, ([1, 0] : List Nat) = [] ++ block ∧
      ∀ sink2, GlobalSection.new.encodeCall sink2 =
        some (GlobalSection.new, sink2 ++ block) :=
  spec_C10 GlobalSection.new [] GlobalSection.new [1, 0] (by decide)
